import Mathlib

/-!
Verification of the EGM base interface (`egm_base_interface.h`) of the
abb_libegm repository.

The repository source available here is the class header: it fixes the data
model (the `InputContainer`, `OutputContainer`, `SessionData` and
`BaseConfigurationContainer` members, their fields and the inline member
functions) while the bodies of the non-inline member functions live in a
translation unit that is not part of the source tree.  Definitions below are
therefore of two kinds:

* direct embeddings of the inline code of the header (the
  `BaseConfigurationContainer` constructor, the getters);
* models of the declared-but-not-included member functions, each marked
  `Modelled from the spec:` in its doc comment and faithful to the spec's
  description of that function.

Machine floating point values (timestamps, positions, sample times) are
embedded as rationals: every rational is finite, so the spec's "finite and
not NaN" side conditions are represented by totality of the definitions.
The C++ `unsigned int` sequence number is embedded as `Nat`; the spec
describes the increment as "by exactly 1", which `Nat.succ` models exactly.
-/

namespace AbbEgm

/-- Wire header of one message: `header{sequence, timestamp_ms}`
(`wrapper::Header`). -/
structure Header where
  sequence_number : Nat
  timestamp : ℚ
  deriving Repr, DecidableEq

/-- Controller execution-state flags carried by an inbound telemetry message
(motors on, RAPID running, EGM running). -/
structure StateFlags where
  motors_on : Bool
  rapid_running : Bool
  egm_running : Bool
  deriving Repr, DecidableEq

/-- Cartesian position (`x`, `y`, `z`). -/
structure CartesianPosition where
  x : ℚ
  y : ℚ
  z : ℚ
  deriving Repr, DecidableEq

/-- Orientation quaternion (`u0` scalar part, `u1 u2 u3` vector part), as in
the EGM wrapper messages. -/
structure Quaternion where
  u0 : ℚ
  u1 : ℚ
  u2 : ℚ
  u3 : ℚ
  deriving Repr, DecidableEq

/-- Status snapshot of the robot controller (`wrapper::Status`): the state
flags reported by the controller. -/
structure Status where
  flags : StateFlags
  deriving Repr, DecidableEq

/-- One decoded telemetry snapshot (`wrapper::Input`): header, joint
positions, Cartesian pose, controller status. -/
structure Input where
  header : Header
  joints : List ℚ
  position : CartesianPosition
  orientation : Quaternion
  status : Status
  deriving Repr, DecidableEq

/-- The raw decoded robot message (`abb::egm::EgmRobot`), before semantic
extraction; the model keeps the payload that extraction maps into an
`Input`, plus the axis count it advertises. -/
structure EgmRobot where
  payload : Input
  axes : Nat
  deriving Repr, DecidableEq

/-- The interface configuration (`BaseConfiguration`): axis layout,
execution-mode and demo-mode settings that the claims touch. -/
structure BaseConfiguration where
  axes : Nat
  use_demo_outputs : Bool
  demo_duration : ℚ
  demo_target_position : CartesianPosition
  demo_target_orientation : Quaternion
  deriving Repr, DecidableEq

/-- Session-scoped input history (`EGMBaseInterface::InputContainer`):
`initial`, `current`, `previous` inputs, the raw message slot, the
`has_new_data` / `first_call` / `first_message` flags and the estimated
sample time, exactly the private fields declared in the header. -/
structure InputContainer where
  egm_robot : EgmRobot
  initial : Input
  current : Input
  previous : Input
  has_new_data : Bool
  first_call : Bool
  first_message : Bool
  estimated_sample_time : ℚ
  deriving Repr, DecidableEq

/-- Double-buffered configuration store
(`EGMBaseInterface::BaseConfigurationContainer`): the `active` and `update`
slots and the `has_pending_update` flag declared in the header (the mutex
guards them and has no data content). -/
structure BaseConfigurationContainer where
  active : BaseConfiguration
  update : BaseConfiguration
  has_pending_update : Bool
  deriving Repr, DecidableEq

/-- The `BaseConfigurationContainer(const BaseConfiguration& initial)`
constructor, inline in the header: initializes `active(initial)`,
`update(initial)`, `has_pending_update(false)`. -/
def BaseConfigurationContainer.init (initial : BaseConfiguration) :
    BaseConfigurationContainer :=
  { active := initial
    update := initial
    has_pending_update := false }

/-- Modelled from the spec: `EGMBaseInterface::getConfiguration()` (body not
in the included source).  "Retrieve the interface's current configuration":
returns the `active` configuration under the configuration mutex. -/
def getConfiguration (c : BaseConfigurationContainer) : BaseConfiguration :=
  c.active

/-- Modelled from the spec: `EGMBaseInterface::setConfiguration(new)` (body
not in the included source).  "Stores into `update`, sets
`has_pending_update`"; the active slot is untouched. -/
def setConfiguration (c : BaseConfigurationContainer)
    (configuration : BaseConfiguration) : BaseConfigurationContainer :=
  { c with update := configuration, has_pending_update := true }

/-- Modelled from the spec: the orchestrator's boundary apply (body not in
the included source).  "Only at a session boundary, copies `update → active`
and clears the flag under the mutex." -/
def applyPendingConfiguration (c : BaseConfigurationContainer) :
    BaseConfigurationContainer :=
  if c.has_pending_update then
    { c with active := c.update, has_pending_update := false }
  else
    c

/-- Modelled from the spec: `InputContainer::statesOk()` (body not in the
included source; the header's doc comment states "I.e. motors are on, RAPID
is running and EGM is running").  True iff all three flags of the current
input are true. -/
def InputContainer.statesOk (c : InputContainer) : Bool :=
  c.current.status.flags.motors_on &&
  c.current.status.flags.rapid_running &&
  c.current.status.flags.egm_running

/-- Modelled from the spec: the "nominal cycle time fallback" of the
configuration surface, used as the initial (and fallback) sample-time
estimate so the estimate is positive before the first valid delta.
EGM's nominal cycle is 4 ms. -/
def nominalSampleTime : ℚ := 1 / 250

/-- Modelled from the spec: `InputContainer::estimateSampleTime()` (body not
in the included source).  "Sample time = current.timestamp −
previous.timestamp when both belong to the same session and the delta is
finite and positive; otherwise holds the last valid estimate."  The previous
input belongs to the same session exactly when the current message is not
the session's first; timestamps are rationals (in seconds), so every delta
is finite and NaN is unrepresentable. -/
def InputContainer.estimateSampleTime (c : InputContainer) : ℚ :=
  let delta := c.current.header.timestamp - c.previous.header.timestamp
  if c.first_message = false ∧ 0 < delta then delta
  else c.estimated_sample_time

/-- Modelled from the spec: the "~0" sample-time tolerance below which
`estimateAllVelocities` skips its update (a guard against dividing by a
vanishing float). -/
def sampleTimeEpsilon : ℚ := 1 / 1000000

/-- Velocity estimates produced by `estimateAllVelocities`: per-joint
velocities, Cartesian linear velocity and angular velocity. -/
structure VelocityEstimates where
  joints : List ℚ
  linear : CartesianPosition
  angular : CartesianPosition
  deriving Repr, DecidableEq

/-- Quaternion conjugate. -/
def Quaternion.conj (q : Quaternion) : Quaternion :=
  ⟨q.u0, -q.u1, -q.u2, -q.u3⟩

/-- Quaternion negation (the same rotation, opposite representative). -/
def Quaternion.neg (q : Quaternion) : Quaternion :=
  ⟨-q.u0, -q.u1, -q.u2, -q.u3⟩

/-- Quaternion Hamilton product. -/
def Quaternion.mul (a b : Quaternion) : Quaternion :=
  ⟨a.u0 * b.u0 - a.u1 * b.u1 - a.u2 * b.u2 - a.u3 * b.u3,
   a.u0 * b.u1 + a.u1 * b.u0 + a.u2 * b.u3 - a.u3 * b.u2,
   a.u0 * b.u2 - a.u1 * b.u3 + a.u2 * b.u0 + a.u3 * b.u1,
   a.u0 * b.u3 + a.u1 * b.u2 - a.u2 * b.u1 + a.u3 * b.u0⟩

/-- Quaternion dot product (cosine of half the angular separation, for unit
quaternions). -/
def Quaternion.dot (a b : Quaternion) : ℚ :=
  a.u0 * b.u0 + a.u1 * b.u1 + a.u2 * b.u2 + a.u3 * b.u3

/-- Modelled from the spec: the shortest-arc orientation delta between the
previous and current orientations — the relative quaternion
`current ⊗ conj(previous)`, sign-corrected so its scalar part is
non-negative (the short-arc representative). -/
def orientationDelta (cur prev : Quaternion) : Quaternion :=
  let d := cur.mul prev.conj
  if d.u0 < 0 then d.neg else d

/-- Modelled from the spec: the angular velocity derived from the
shortest-arc orientation delta divided by the sample time (the small-angle
quaternion-derivative formula ω = 2·vec(Δq)/dt). -/
def angularVelocityEstimate (cur prev : Quaternion) (dt : ℚ) :
    CartesianPosition :=
  let d := orientationDelta cur prev
  ⟨2 * d.u1 / dt, 2 * d.u2 / dt, 2 * d.u3 / dt⟩

/-- Modelled from the spec: `InputContainer::estimateAllVelocities()` (body
not in the included source).  Joint velocity = finite difference of position
over the estimated sample time; Cartesian linear velocity likewise; angular
velocity from the shortest-arc orientation delta divided by sample time;
skips the update (holds the previous estimate) when the sample time is ~0. -/
def InputContainer.estimateAllVelocities (c : InputContainer)
    (old : VelocityEstimates) : VelocityEstimates :=
  let dt := c.estimated_sample_time
  if dt < sampleTimeEpsilon then old
  else
    { joints := List.zipWith (fun cur prev => (cur - prev) / dt)
        c.current.joints c.previous.joints
      linear := ⟨(c.current.position.x - c.previous.position.x) / dt,
                 (c.current.position.y - c.previous.position.y) / dt,
                 (c.current.position.z - c.previous.position.z) / dt⟩
      angular := angularVelocityEstimate c.current.orientation
                   c.previous.orientation dt }

/-- Modelled from the spec: `InputContainer::parseFromArray(data, bytes)`
(body not in the included source).  Decodes via the external WireCodec
(abstracted as the `decode` argument); on malformed/truncated input the
decode fails and the container is returned unchanged, with `false`. -/
def InputContainer.parseFromArray (decode : List Nat → Option EgmRobot)
    (c : InputContainer) (data : List Nat) : Bool × InputContainer :=
  match decode data with
  | none => (false, c)
  | some message => (true, { c with egm_robot := message })

/-- Modelled from the spec: `InputContainer::extractParsedInformation(axes)`
(body not in the included source).  Maps the decoded message into the
current `Input` honoring the declared axis layout; fails (container
unchanged) if the axis counts mismatch.  On the first successful extraction
after a disconnect (`newSession`), sets `initial := current` and
`first_message := true`; on every other successful extraction
`first_message := false`. -/
def InputContainer.extractParsedInformation (c : InputContainer)
    (axes : Nat) (newSession : Bool) : Bool × InputContainer :=
  if c.egm_robot.axes = axes then
    let extracted := c.egm_robot.payload
    if newSession then
      (true, { c with current := extracted
                      initial := extracted
                      first_message := true
                      has_new_data := true
                      first_call := false })
    else
      (true, { c with current := extracted
                      first_message := false
                      has_new_data := true
                      first_call := false })
  else
    (false, c)

/-- Modelled from the spec: `InputContainer::updatePrevious()` (body not in
the included source): "commits `current` into `previous` after the cycle's
output has been produced". -/
def InputContainer.updatePrevious (c : InputContainer) : InputContainer :=
  { c with previous := c.current }

/-- One outbound command snapshot (`wrapper::Output`): header plus
joint/Cartesian targets. -/
structure Output where
  header : Header
  joints : List ℚ
  position : CartesianPosition
  orientation : Quaternion
  deriving Repr, DecidableEq

/-- Session-scoped output history (`EGMBaseInterface::OutputContainer`):
the `current` output under construction, the `previous` sent output, the
session sequence number and the serialized reply bytes, exactly the fields
declared in the header. -/
structure OutputContainer where
  current : Output
  previous : Output
  sequence_number : Nat
  reply : List Nat
  deriving Repr, DecidableEq

/-- The `OutputContainer::clearReply()` inline member: drops the cached
reply bytes. -/
def OutputContainer.clearReply (c : OutputContainer) : OutputContainer :=
  { c with reply := [] }

/-- Modelled from the spec: `OutputContainer::updatePrevious()` (body not in
the included source): commits `current` into `previous` after the send. -/
def OutputContainer.updatePrevious (c : OutputContainer) : OutputContainer :=
  { c with previous := c.current }

/-- Modelled from the spec: the fixed start value of the reply sequence
number at a session start (the end-to-end scenario of the spec shows reply
sequence numbers 0, 1, 2). -/
def sequenceStartValue : Nat := 0

/-- Modelled from the spec: `OutputContainer::constructHeader()` (body not
in the included source).  Sets the sequence number and timestamp of the
current output's header: resets the sequence number to its start value when
`first_message` is true, otherwise increments it by exactly 1. -/
def OutputContainer.constructHeader (c : OutputContainer)
    (first_message : Bool) (now : ℚ) : OutputContainer :=
  let seq := if first_message then sequenceStartValue
             else c.sequence_number + 1
  { c with sequence_number := seq
           current := { c.current with header := ⟨seq, now⟩ } }

/-- The reply sequence numbers emitted by iterating `constructHeader` over a
list of `first_message` flags (one flag per sent reply), starting from
sequence-number state `s`. -/
def sequenceTrace (s : Nat) : List Bool → List Nat
  | [] => []
  | fm :: rest =>
      let s' := if fm then sequenceStartValue else s + 1
      s' :: sequenceTrace s' rest

/-- Interpolation-parameter clamp to [0, 1]. -/
def clamp01 (x : ℚ) : ℚ := max 0 (min x 1)

/-- Scalar linear interpolation between `a` and `b` at parameter `t`. -/
def lerp (a b t : ℚ) : ℚ := (1 - t) * a + t * b

/-- Componentwise linear interpolation of Cartesian positions. -/
def lerpPosition (p0 p1 : CartesianPosition) (t : ℚ) : CartesianPosition :=
  ⟨lerp p0.x p1.x t, lerp p0.y p1.y t, lerp p0.z p1.z t⟩

/-- The endpoint quaternion actually interpolated towards: the configured
target, sign-flipped when its dot product with the initial orientation is
negative, so the interpolation follows the shortest arc. -/
def shortestArcTarget (q0 q1 : Quaternion) : Quaternion :=
  if q0.dot q1 < 0 then q1.neg else q1

/-- Modelled from the spec:
`OutputContainer::generateDemoQuaternions(inputs, t)` (body not in the
included source).  Shortest-arc interpolation between the session's initial
orientation and the configured target at parameter `t ∈ [0, 1]`:
the target is sign-corrected onto the short arc and the components are
blended with weights `(1 − t)` and `t`.  (The spherical weights
sin((1−t)·Ω)/sin Ω and sin(t·Ω)/sin Ω are transcendental; they equal these
linear weights at t = 0 and t = 1, and the endpoint/short-arc properties
stated by the spec do not depend on the weight profile, so the rational
embedding uses the linear weights.) -/
def generateDemoQuaternions (q0 q1 : Quaternion) (t : ℚ) : Quaternion :=
  let qt := shortestArcTarget q0 q1
  ⟨lerp q0.u0 qt.u0 t, lerp q0.u1 qt.u1 t,
   lerp q0.u2 qt.u2 t, lerp q0.u3 qt.u3 t⟩

/-- A reference pose: Cartesian position plus orientation quaternion. -/
structure Pose where
  position : CartesianPosition
  orientation : Quaternion
  deriving Repr, DecidableEq

/-- The demo reference pose at interpolation parameter `t`: position lerp
plus shortest-arc orientation interpolation. -/
def demoPoseAt (initialPose : Pose) (cfg : BaseConfiguration) (t : ℚ) :
    Pose :=
  { position := lerpPosition initialPose.position cfg.demo_target_position t
    orientation := generateDemoQuaternions initialPose.orientation
                     cfg.demo_target_orientation t }

/-- Modelled from the spec: `OutputContainer::generateDemoOutputs(inputs)`
(body not in the included source).  In demo mode, synthesizes the reference
pose between the session's initial pose and the configured target at
parameter t = clamp(elapsed_session_time / configured_duration, 0, 1). -/
def generateDemoOutputs (initialPose : Pose) (cfg : BaseConfiguration)
    (elapsed : ℚ) : Pose :=
  demoPoseAt initialPose cfg (clamp01 (elapsed / cfg.demo_duration))

/-- The whole per-interface mutable state the orchestrator's callback
touches: input container, output container and configuration store. -/
structure InterfaceState where
  inputs : InputContainer
  outputs : OutputContainer
  configuration : BaseConfigurationContainer
  deriving Repr, DecidableEq

/-- Modelled from the spec: the message-processing part of
`EGMBaseInterface::callback(server_data)` (body not in the included
source).  Parse, then extract, then estimate, then construct the reply; a
decode failure drops the message, changes no state and owes no reply; an
extraction failure likewise drops the message.  The session-boundary policy
is the container's first-call/first-message flag, as the header declares
it. -/
def callback (decode : List Nat → Option EgmRobot) (st : InterfaceState)
    (data : List Nat) (now : ℚ) : InterfaceState × Option Output :=
  let parsed := st.inputs.parseFromArray decode data
  if parsed.1 = false then
    ({ st with inputs := parsed.2 }, none)
  else
    let newSession := parsed.2.first_call
    let cfg := if newSession then
                 applyPendingConfiguration st.configuration
               else st.configuration
    let extracted := parsed.2.extractParsedInformation cfg.active.axes
                       newSession
    if extracted.1 = false then
      ({ st with inputs := extracted.2, configuration := cfg }, none)
    else
      let est := { extracted.2 with
                   estimated_sample_time := extracted.2.estimateSampleTime }
      let outs := st.outputs.constructHeader est.first_message now
      ({ inputs := est.updatePrevious
         outputs := outs.updatePrevious
         configuration := cfg },
       some outs.current)

/-- One consistent header/status pair of
`EGMBaseInterface::SessionData` (the mutex guards it and has no data
content). -/
structure SessionPair where
  header : Header
  status : Status
  deriving Repr, DecidableEq

/-- One atomic access to the session data.  Modelled from the spec: every
read and every write of `SessionData` happens inside a critical section of
its single mutex, so an execution is an arbitrary interleaving of atomic
whole-pair writes (the orchestrator, post-processing each message) and
atomic whole-pair reads (`getStatus` / `isConnected`, from any thread). -/
inductive SessionEvent where
  | write (header : Header) (status : Status)
  | read
  deriving Repr, DecidableEq

/-- Run an interleaving of session-data accesses from an initial pair:
returns the final pair and the list of pairs the reads observed, in
order. -/
def runSessionTrace (p : SessionPair) :
    List SessionEvent → SessionPair × List SessionPair
  | [] => (p, [])
  | SessionEvent.write h s :: rest => runSessionTrace ⟨h, s⟩ rest
  | SessionEvent.read :: rest =>
      let r := runSessionTrace p rest
      (r.1, p :: r.2)

/-! Concrete sample values, used by the witness theorems below to evaluate
the definitions on explicit inputs. -/

/-- Sample state flags: all three controller flags true. -/
def sampleFlags : StateFlags := ⟨true, true, true⟩

/-- Sample input at timestamp `t` (six axes at rest, identity
orientation, all state flags true). -/
def sampleInputAt (t : ℚ) : Input :=
  { header := ⟨0, t⟩
    joints := [0, 0, 0, 0, 0, 0]
    position := ⟨0, 0, 0⟩
    orientation := ⟨1, 0, 0, 0⟩
    status := ⟨sampleFlags⟩ }

/-- Sample raw robot message advertising six axes. -/
def sampleRobot : EgmRobot := ⟨sampleInputAt 0, 6⟩

/-- Sample configuration: six axes, demo mode over 1 s towards position
(1, 2, 3) with a 180°-about-x target orientation. -/
def sampleConfiguration : BaseConfiguration :=
  { axes := 6
    use_demo_outputs := true
    demo_duration := 1
    demo_target_position := ⟨1, 2, 3⟩
    demo_target_orientation := ⟨0, 1, 0, 0⟩ }

/-- Sample input container: two consecutive messages of one session,
4 ms apart. -/
def sampleInputs : InputContainer :=
  { egm_robot := sampleRobot
    initial := sampleInputAt 0
    current := sampleInputAt (1 / 250)
    previous := sampleInputAt 0
    has_new_data := false
    first_call := true
    first_message := false
    estimated_sample_time := nominalSampleTime }

/-- Sample output snapshot. -/
def sampleOutput : Output :=
  { header := ⟨0, 0⟩
    joints := [0, 0, 0, 0, 0, 0]
    position := ⟨0, 0, 0⟩
    orientation := ⟨1, 0, 0, 0⟩ }

/-- Sample output container. -/
def sampleOutputs : OutputContainer :=
  { current := sampleOutput
    previous := sampleOutput
    sequence_number := 0
    reply := [] }

/-- Sample whole-interface state. -/
def sampleState : InterfaceState :=
  { inputs := sampleInputs
    outputs := sampleOutputs
    configuration := BaseConfigurationContainer.init sampleConfiguration }

/-- Sample pose (origin, identity orientation). -/
def samplePose : Pose := ⟨⟨0, 0, 0⟩, ⟨1, 0, 0, 0⟩⟩

/-- Sample velocity estimates. -/
def sampleVelocities : VelocityEstimates := ⟨[1, 1, 1, 1, 1, 1], ⟨1, 1, 1⟩, ⟨1, 1, 1⟩⟩

/-! ## Theorems -/

/-- C10: a freshly constructed `BaseConfigurationContainer` satisfies
`active = update = initial` and `has_pending_update = false`, so
`getConfiguration()` right after construction returns exactly the
constructor-supplied configuration and no update is pending. -/
theorem baseConfigurationContainer_init_state (initial : BaseConfiguration) :
    (BaseConfigurationContainer.init initial).active = initial ∧
    (BaseConfigurationContainer.init initial).update = initial ∧
    (BaseConfigurationContainer.init initial).has_pending_update = false ∧
    getConfiguration (BaseConfigurationContainer.init initial) = initial :=
  ⟨rfl, rfl, rfl, rfl⟩

/-- C4: `statesOk()` returns true iff the motors-on, rapid-running and
egm-running flags of the current input are all true, and false in every
other case. -/
theorem statesOk_iff_all_flags (c : InputContainer) :
    (c.statesOk = true ↔
      (c.current.status.flags.motors_on = true ∧
       c.current.status.flags.rapid_running = true ∧
       c.current.status.flags.egm_running = true)) ∧
    (c.statesOk = false ↔
      ¬(c.current.status.flags.motors_on = true ∧
        c.current.status.flags.rapid_running = true ∧
        c.current.status.flags.egm_running = true)) := by
  constructor
  · simp [InputContainer.statesOk, Bool.and_eq_true]
    tauto
  · simp [InputContainer.statesOk, Bool.and_eq_true, ← Bool.not_eq_true]

/-- Witness for C4: evaluated on the sample container, whose three flags
are all true. -/
theorem statesOk_iff_all_flags_holds :
    sampleInputs.statesOk = true :=
  (statesOk_iff_all_flags sampleInputs).1.mpr ⟨rfl, rfl, rfl⟩

/-- C6: `setConfiguration` stores the new configuration only into the
`update` slot and raises `has_pending_update`; `active` — hence
`getConfiguration()` — is unchanged, and the boundary apply copies
`update` into `active` and clears the flag. -/
theorem setConfiguration_deferred (c : BaseConfigurationContainer)
    (cfg : BaseConfiguration) :
    (setConfiguration c cfg).update = cfg ∧
    (setConfiguration c cfg).has_pending_update = true ∧
    (setConfiguration c cfg).active = c.active ∧
    getConfiguration (setConfiguration c cfg) = getConfiguration c ∧
    applyPendingConfiguration (setConfiguration c cfg) =
      { active := cfg, update := cfg, has_pending_update := false } := by
  refine ⟨rfl, rfl, rfl, rfl, ?_⟩
  simp [applyPendingConfiguration, setConfiguration]

/-- The sequence numbers emitted over a run of non-first messages are the
consecutive naturals following the entry state. -/
theorem sequenceTrace_replicate_false (n : Nat) :
    ∀ s, sequenceTrace s (List.replicate n false) = List.range' (s + 1) n := by
  induction n with
  | zero => intro s; simp [sequenceTrace]
  | succ n ih =>
      intro s
      simp [List.replicate_succ, sequenceTrace, ih, List.range'_succ]

/-- C1: `constructHeader` sets the reply sequence number to its fixed start
value exactly when `first_message` is true and otherwise increments it by
exactly 1, and stamps that number into the current output's header; hence
over a session (one first message followed by `n` ordinary replies) the
emitted sequence numbers are exactly `0, 1, …, n` — no skip, no
mid-session reset. -/
theorem constructHeader_sequence_numbers :
    (∀ (c : OutputContainer) (fm : Bool) (now : ℚ),
      (c.constructHeader fm now).sequence_number =
        (if fm then sequenceStartValue else c.sequence_number + 1) ∧
      (c.constructHeader fm now).current.header =
        ⟨(c.constructHeader fm now).sequence_number, now⟩) ∧
    (∀ (s n : Nat),
      sequenceTrace s (true :: List.replicate n false) =
        List.range (n + 1)) := by
  constructor
  · intro c fm now
    exact ⟨rfl, rfl⟩
  · intro s n
    simp [sequenceTrace, sequenceTrace_replicate_false, sequenceStartValue,
      List.range_eq_range', List.range'_succ]

/-- C2: `estimateSampleTime` returns `current.timestamp −
previous.timestamp` when both messages belong to the same session (the
current message is not the session's first) and the delta is positive; in
every other case it returns the last valid estimate; and given a positive
last estimate, its result is positive (so never ≤ 0; rational timestamps
are always finite and never NaN). -/
theorem estimateSampleTime_spec (c : InputContainer)
    (hpos : 0 < c.estimated_sample_time) :
    (c.first_message = false →
      0 < c.current.header.timestamp - c.previous.header.timestamp →
      c.estimateSampleTime =
        c.current.header.timestamp - c.previous.header.timestamp) ∧
    (¬(c.first_message = false ∧
        0 < c.current.header.timestamp - c.previous.header.timestamp) →
      c.estimateSampleTime = c.estimated_sample_time) ∧
    0 < c.estimateSampleTime := by
  unfold InputContainer.estimateSampleTime
  refine ⟨?_, ?_, ?_⟩
  · intro hfm hdelta
    simp [hfm, hdelta]
  · intro hnot
    simp only [if_neg hnot]
  · dsimp only
    split
    · next hc => exact hc.2
    · next => exact hpos

/-- Witness for C2: on the sample container (two same-session messages 4 ms
apart, positive last estimate) the estimate is the timestamp delta and is
positive. -/
theorem estimateSampleTime_spec_holds :
    0 < sampleInputs.estimated_sample_time ∧
    sampleInputs.estimateSampleTime =
      sampleInputs.current.header.timestamp -
        sampleInputs.previous.header.timestamp ∧
    0 < sampleInputs.estimateSampleTime := by
  have h : 0 < sampleInputs.estimated_sample_time := by
    norm_num [sampleInputs, nominalSampleTime]
  have main := estimateSampleTime_spec sampleInputs h
  refine ⟨h, main.1 rfl ?_, main.2.2⟩
  norm_num [sampleInputs, sampleInputAt]

/-- C5: on a successful extraction that is the first after a disconnect,
`initial` equals `current` and `first_message` is true; on every other
successful extraction `first_message` is false. -/
theorem extractParsedInformation_first_message (c : InputContainer)
    (axes : Nat) (newSession : Bool) :
    ((c.extractParsedInformation axes newSession).1 = true →
      newSession = true →
      ((c.extractParsedInformation axes newSession).2.initial =
        (c.extractParsedInformation axes newSession).2.current ∧
       (c.extractParsedInformation axes newSession).2.first_message = true)) ∧
    ((c.extractParsedInformation axes newSession).1 = true →
      newSession = false →
      (c.extractParsedInformation axes newSession).2.first_message = false) := by
  unfold InputContainer.extractParsedInformation
  by_cases hax : c.egm_robot.axes = axes
  · cases newSession <;> simp [hax]
  · simp [hax]

/-- Witness for C5: the sample container (a six-axis message, extracted
with six axes) on a new session yields `initial = current` and
`first_message = true`. -/
theorem extractParsedInformation_first_message_holds :
    (sampleInputs.extractParsedInformation 6 true).2.initial =
      (sampleInputs.extractParsedInformation 6 true).2.current ∧
    (sampleInputs.extractParsedInformation 6 true).2.first_message = true :=
  (extractParsedInformation_first_message sampleInputs 6 true).1 rfl rfl

/-- C3: when the decode of an input buffer fails, `callback` leaves the
whole interface state — in particular the input container's `current` and
`previous` and the output container's `sequence_number` — unchanged,
returns no reply, and (being a total function) does not abort;
`parseFromArray` itself reports failure with the container untouched. -/
theorem callback_parse_failure (decode : List Nat → Option EgmRobot)
    (st : InterfaceState) (data : List Nat) (now : ℚ)
    (hfail : decode data = none) :
    callback decode st data now = (st, none) ∧
    (callback decode st data now).1.inputs.current = st.inputs.current ∧
    (callback decode st data now).1.inputs.previous = st.inputs.previous ∧
    (callback decode st data now).1.outputs.sequence_number =
      st.outputs.sequence_number ∧
    st.inputs.parseFromArray decode data = (false, st.inputs) := by
  have hparse : st.inputs.parseFromArray decode data = (false, st.inputs) := by
    unfold InputContainer.parseFromArray
    rw [hfail]
  have hcb : callback decode st data now = (st, none) := by
    unfold callback
    rw [hparse]
    simp
  refine ⟨hcb, ?_, ?_, ?_, hparse⟩ <;> rw [hcb]

/-- Witness for C3: a decoder rejecting every buffer leaves the sample
state untouched and produces no reply. -/
theorem callback_parse_failure_holds :
    callback (fun _ => none) sampleState [1, 2, 3] 0 = (sampleState, none) :=
  (callback_parse_failure (fun _ => none) sampleState [1, 2, 3] 0 rfl).1

/-- C8: with a usable sample time, `estimateAllVelocities` computes joint
velocities as the finite difference of position over the estimated sample
time (so an unchanged joint yields estimate 0), Cartesian linear velocity
likewise, and angular velocity from the shortest-arc orientation delta
divided by the sample time; with a ~0 sample time it skips the update and
holds the previous estimates. -/
theorem estimateAllVelocities_spec (c : InputContainer)
    (old : VelocityEstimates) :
    (c.estimated_sample_time < sampleTimeEpsilon →
      c.estimateAllVelocities old = old) ∧
    (¬c.estimated_sample_time < sampleTimeEpsilon →
      ((c.estimateAllVelocities old).joints =
        List.zipWith (fun cur prev => (cur - prev) / c.estimated_sample_time)
          c.current.joints c.previous.joints ∧
       (c.estimateAllVelocities old).linear =
        ⟨(c.current.position.x - c.previous.position.x) /
           c.estimated_sample_time,
         (c.current.position.y - c.previous.position.y) /
           c.estimated_sample_time,
         (c.current.position.z - c.previous.position.z) /
           c.estimated_sample_time⟩ ∧
       (c.estimateAllVelocities old).angular =
        angularVelocityEstimate c.current.orientation c.previous.orientation
          c.estimated_sample_time ∧
       ∀ (i : Nat) (x : ℚ), c.current.joints[i]? = some x →
         c.previous.joints[i]? = some x →
         (c.estimateAllVelocities old).joints[i]? = some 0)) := by
  unfold InputContainer.estimateAllVelocities
  dsimp only
  constructor
  · intro h
    rw [if_pos h]
  · intro h
    rw [if_neg h]
    refine ⟨rfl, rfl, rfl, ?_⟩
    intro i x h1 h2
    rw [List.getElem?_zipWith_eq_some]
    exact ⟨x, x, h1, h2, by rw [sub_self, zero_div]⟩

/-- Witness for C8: the sample container has a 4 ms sample time (not ~0)
and joint 0 at rest across the two cycles, so its velocity estimate is 0. -/
theorem estimateAllVelocities_spec_holds :
    ¬sampleInputs.estimated_sample_time < sampleTimeEpsilon ∧
    (sampleInputs.estimateAllVelocities sampleVelocities).joints[0]? =
      some 0 := by
  have h : ¬sampleInputs.estimated_sample_time < sampleTimeEpsilon := by
    norm_num [sampleInputs, nominalSampleTime, sampleTimeEpsilon]
  exact ⟨h, ((estimateAllVelocities_spec sampleInputs sampleVelocities).2
    h).2.2.2 0 0 rfl rfl⟩

/-- Linear interpolation at parameter 0 is the start point. -/
theorem lerp_zero (a b : ℚ) : lerp a b 0 = a := by
  simp [lerp]

/-- Linear interpolation at parameter 1 is the end point. -/
theorem lerp_one (a b : ℚ) : lerp a b 1 = b := by
  simp [lerp]

/-- Dotting against a negated quaternion negates the dot product. -/
theorem dot_neg_right (a b : Quaternion) : a.dot b.neg = -(a.dot b) := by
  simp only [Quaternion.dot, Quaternion.neg]
  ring

/-- C7: `generateDemoOutputs` interpolates at
t = clamp(elapsed / duration, 0, 1); at t = 0 the pose is the session's
initial pose exactly; at t = 1 it is the configured target exactly (on the
quaternion level whenever the angular separation is below 180°, i.e. the
representatives' dot product is non-negative, and always up to quaternion
sign, i.e. as the same orientation); the pose is held once t reaches 1;
and the interpolation endpoint is always on the shortest arc (non-negative
dot product with the initial orientation). -/
theorem generateDemoOutputs_spec (p : Pose) (cfg : BaseConfiguration)
    (elapsed : ℚ) (hd : 0 < cfg.demo_duration) :
    generateDemoOutputs p cfg elapsed =
      demoPoseAt p cfg (clamp01 (elapsed / cfg.demo_duration)) ∧
    demoPoseAt p cfg 0 = p ∧
    (0 ≤ p.orientation.dot cfg.demo_target_orientation →
      demoPoseAt p cfg 1 =
        ⟨cfg.demo_target_position, cfg.demo_target_orientation⟩) ∧
    ((demoPoseAt p cfg 1).position = cfg.demo_target_position ∧
      ((demoPoseAt p cfg 1).orientation = cfg.demo_target_orientation ∨
       (demoPoseAt p cfg 1).orientation =
         cfg.demo_target_orientation.neg)) ∧
    (cfg.demo_duration ≤ elapsed →
      generateDemoOutputs p cfg elapsed = demoPoseAt p cfg 1) ∧
    0 ≤ p.orientation.dot
        (shortestArcTarget p.orientation cfg.demo_target_orientation) := by
  refine ⟨rfl, ?_, ?_, ⟨?_, ?_⟩, ?_, ?_⟩
  · simp [demoPoseAt, lerpPosition, lerp_zero, generateDemoQuaternions]
  · intro hdot
    simp [demoPoseAt, lerpPosition, lerp_one, generateDemoQuaternions,
      shortestArcTarget, not_lt.mpr hdot]
  · simp [demoPoseAt, lerpPosition, lerp_one]
  · by_cases hneg :
      p.orientation.dot cfg.demo_target_orientation < 0
    · right
      simp [demoPoseAt, generateDemoQuaternions, shortestArcTarget, hneg,
        lerp_one]
    · left
      simp [demoPoseAt, generateDemoQuaternions, shortestArcTarget, hneg,
        lerp_one]
  · intro he
    have h1 : (1 : ℚ) ≤ elapsed / cfg.demo_duration :=
      (one_le_div hd).mpr he
    have hclamp : clamp01 (elapsed / cfg.demo_duration) = 1 := by
      unfold clamp01
      rw [min_eq_right h1]
      norm_num
    unfold generateDemoOutputs
    rw [hclamp]
  · unfold shortestArcTarget
    split
    · next hneg =>
        rw [dot_neg_right]
        linarith
    · next hpos => exact not_lt.mp hpos

/-- Witness for C7: with the sample one-second demo configuration, the pose
at t = 0 is the sample pose exactly, and after 2 s (t clamped to 1) the
generated pose is the held final pose. -/
theorem generateDemoOutputs_spec_holds :
    (0 : ℚ) < sampleConfiguration.demo_duration ∧
    demoPoseAt samplePose sampleConfiguration 0 = samplePose ∧
    generateDemoOutputs samplePose sampleConfiguration 2 =
      demoPoseAt samplePose sampleConfiguration 1 := by
  have hd : (0 : ℚ) < sampleConfiguration.demo_duration := by
    norm_num [sampleConfiguration]
  have main := generateDemoOutputs_spec samplePose sampleConfiguration 2 hd
  exact ⟨hd, main.2.1, main.2.2.2.2.1 (by norm_num [sampleConfiguration])⟩

/-- C9: over any interleaving of atomic session-data accesses (every access
is one critical section of the single `SessionData` mutex), each read —
`getStatus` / `isConnected` from any thread — observes either the initial
header/status pair or a pair deposited whole by one write event of the
trace: never a torn mixture of two updates. -/
theorem sessionTrace_reads_consistent (init : SessionPair)
    (trace : List SessionEvent) :
    ∀ p ∈ (runSessionTrace init trace).2,
      p = init ∨
        ∃ h s, SessionEvent.write h s ∈ trace ∧ p = ⟨h, s⟩ := by
  induction trace generalizing init with
  | nil =>
      intro p hp
      simp [runSessionTrace] at hp
  | cons e rest ih =>
      cases e with
      | write h s =>
          intro p hp
          rw [runSessionTrace] at hp
          rcases ih ⟨h, s⟩ p hp with rfl | ⟨h', s', hm, rfl⟩
          · exact Or.inr ⟨h, s, List.mem_cons_self _ _, rfl⟩
          · exact Or.inr ⟨h', s', List.mem_cons_of_mem _ hm, rfl⟩
      | read =>
          intro p hp
          simp only [runSessionTrace] at hp
          rcases List.mem_cons.mp hp with rfl | hp'
          · exact Or.inl rfl
          · rcases ih init p hp' with rfl | ⟨h', s', hm, rfl⟩
            · exact Or.inl rfl
            · exact Or.inr ⟨h', s', List.mem_cons_of_mem _ hm, rfl⟩

/-- Witness for C9: in the concrete trace write–read–write–read, the first
read observes exactly the pair the first write deposited. -/
theorem sessionTrace_reads_consistent_holds :
    (⟨⟨1, 0⟩, ⟨sampleFlags⟩⟩ : SessionPair) = ⟨⟨0, 0⟩, ⟨sampleFlags⟩⟩ ∨
      ∃ h s,
        SessionEvent.write h s ∈
          [SessionEvent.write ⟨1, 0⟩ ⟨sampleFlags⟩, SessionEvent.read,
           SessionEvent.write ⟨2, 1⟩ ⟨sampleFlags⟩, SessionEvent.read] ∧
        (⟨⟨1, 0⟩, ⟨sampleFlags⟩⟩ : SessionPair) = ⟨h, s⟩ :=
  sessionTrace_reads_consistent ⟨⟨0, 0⟩, ⟨sampleFlags⟩⟩
    [SessionEvent.write ⟨1, 0⟩ ⟨sampleFlags⟩, SessionEvent.read,
     SessionEvent.write ⟨2, 1⟩ ⟨sampleFlags⟩, SessionEvent.read]
    ⟨⟨1, 0⟩, ⟨sampleFlags⟩⟩ (by simp [runSessionTrace])

end AbbEgm
